import Mathlib

set_option maxRecDepth 100000

/-!
Verification of the peer registry and dual-transport delivery engine of
`chat_websocket_sse.py` (a Starlette WebSocket/SSE chat server).

The Python program keeps two module-level dicts,
`websocket_connections : uuid -> WebSocket` and `sse_queues : uuid -> Queue`,
and three handlers: `websocket_endpoint` (bidirectional sessions),
`sse_endpoint` (push subscriptions) and `send_message_http` (HTTP send).
Identifier validation is `uuid.UUID(s)` from the CPython standard library,
wrapped in `try/except (ValueError, TypeError)`.

The embedding below is a direct shallow translation:
* dicts become association lists with `dictGet`/`dictSet`/`dictPop`
  (a dict holds at most one binding per key, so removing every binding
  for the key coincides with `dict.pop(key, None)`);
* WebSocket handles and SSE queues become numeric identities, and the
  messages written to each are recorded in the state, so that "the
  receiver observes the message" is a statement about the state;
* a WebSocket whose underlying connection is broken (its `send_json`
  raises, which the source swallows with `except Exception: pass`) is
  modelled by the `brokenChan` field: a write to a broken channel has no
  effect and reports failure;
* `uuid.UUID(s)` on a string is translated from CPython's `uuid.py`
  (replace `urn:` and `uuid:` by nothing, strip surrounding braces,
  remove hyphens, require 32 characters, parse with `int(s, 16)`, range
  check) together with CPython's `int(s, 16)` grammar restricted to
  ASCII strings: optional surrounding whitespace, optional sign,
  optional `0x`/`0X` prefix (which may be followed by one underscore),
  then hexadecimal digits with single underscores allowed between
  digits.
-/

/-! ## Association-list model of a Python dict -/

/-- `d.get(k)`: the value bound to `k`, if any. -/
def dictGet {α : Type} (d : List (String × α)) (k : String) : Option α :=
  match d.find? (fun p => p.1 == k) with
  | some p => some p.2
  | none => none

/-- `d[k] = v`: bind `k` to `v`, overwriting an existing binding. -/
def dictSet {α : Type} (d : List (String × α)) (k : String) (v : α) : List (String × α) :=
  match d with
  | [] => [(k, v)]
  | p :: rest => if p.1 == k then (k, v) :: rest else p :: dictSet rest k v

/-- `d.pop(k, None)`: drop the binding for `k` (a no-op when absent).
A dict holds at most one binding per key, so dropping every pair with
key `k` coincides with removing the single binding. -/
def dictPop {α : Type} (d : List (String × α)) (k : String) : List (String × α) :=
  d.filter (fun p => !(p.1 == k))

/-! ## CPython `uuid.UUID(s)` on strings, restricted to ASCII input -/

/-- ASCII whitespace accepted by `int(s, 16)`:
space, tab, newline, carriage return, vertical tab, form feed. -/
def isPySpace (c : Char) : Bool :=
  c == ' ' || c == '\t' || c == '\n' || c == '\r' || c == '\x0b' || c == '\x0c'

/-- Hexadecimal digit: `0`-`9` (codes 48-57), `a`-`f` (97-102),
`A`-`F` (65-70). -/
def isHexDigitChar (c : Char) : Bool :=
  (48 ≤ c.toNat && c.toNat ≤ 57) || (97 ≤ c.toNat && c.toNat ≤ 102) ||
    (65 ≤ c.toNat && c.toNat ≤ 70)

/-- Value of a hexadecimal digit. -/
def hexDigitVal (c : Char) : Nat :=
  if 48 ≤ c.toNat && c.toNat ≤ 57 then c.toNat - 48
  else if 97 ≤ c.toNat && c.toNat ≤ 102 then c.toNat - 87
  else c.toNat - 55

/-- Does `pat` occur at the start of `s`? -/
def leadsWith : List Char → List Char → Bool
  | [], _ => true
  | _ :: _, [] => false
  | p :: ps, c :: cs => p == c && leadsWith ps cs

/-- Worker for `removeAll`, structurally recursive on a fuel counter so
that it evaluates by kernel reduction; each step consumes at least one
character of `s`, so `s.length` fuel always suffices. -/
def removeAllGo (pat : List Char) : Nat → List Char → List Char
  | _, [] => []
  | 0, s => s
  | Nat.succ fuel, c :: cs =>
    if !pat.isEmpty && leadsWith pat (c :: cs) then
      removeAllGo pat fuel (List.drop (pat.length - 1) cs)
    else c :: removeAllGo pat fuel cs

/-- `s.replace(pat, "")`: remove every (leftmost, non-overlapping)
occurrence of `pat` from `s`.  The patterns used by `uuid.UUID` are
`urn:`, `uuid:` and `-`, all non-empty. -/
def removeAll (pat : List Char) (s : List Char) : List Char :=
  removeAllGo pat s.length s

/-- `s.strip(cs)`: drop the characters satisfying `p` from both ends. -/
def stripChars (p : Char → Bool) (s : List Char) : List Char :=
  ((s.dropWhile p).reverse.dropWhile p).reverse

/-- Brace characters stripped by `hex.strip` in `uuid.UUID`. -/
def isBraceChar (c : Char) : Bool :=
  c == '\x7b' || c == '\x7d'

/-- Digit run of `int(s, 16)` after the first digit: hexadecimal digits
with single underscores allowed only between digits. -/
def parseHexDigitsAux : List Char → Nat → Option Nat
  | [], acc => some acc
  | c :: cs, acc =>
    if c == '_' then
      match cs with
      | [] => none
      | d :: ds =>
        if isHexDigitChar d then parseHexDigitsAux ds (acc * 16 + hexDigitVal d) else none
    else if isHexDigitChar c then parseHexDigitsAux cs (acc * 16 + hexDigitVal c)
    else none

/-- Digit run of `int(s, 16)`: at least one digit, no leading underscore. -/
def parseHexDigits : List Char → Option Nat
  | [] => none
  | c :: cs => if isHexDigitChar c then parseHexDigitsAux cs (hexDigitVal c) else none

/-- Optional sign of `int(s, 16)`; `true` means negative. -/
def splitSign (s : List Char) : Bool × List Char :=
  match s with
  | [] => (false, [])
  | c :: r =>
    if c == '+' then (false, r)
    else if c == '-' then (true, r)
    else (false, c :: r)

/-- Optional `0x`/`0X` prefix of `int(s, 16)`; when present, one
underscore may directly follow it. -/
def strip0x (s : List Char) : List Char :=
  match s with
  | c0 :: c1 :: r =>
    if c0 == '0' && (c1 == 'x' || c1 == 'X') then
      match r with
      | [] => []
      | c2 :: r2 => if c2 == '_' then r2 else c2 :: r2
    else c0 :: c1 :: r
  | _ => s

/-- CPython `int(s, 16)` on an ASCII string: optional surrounding
whitespace, optional sign, optional `0x`/`0X` prefix, digit run. -/
def pyIntVal16 (s : List Char) : Option Int :=
  let s1 := stripChars isPySpace s
  let sg := splitSign s1
  let s3 := strip0x sg.2
  match parseHexDigits s3 with
  | some n => some (if sg.1 then -(n : Int) else (n : Int))
  | none => none

/-- The normalisation `uuid.UUID` applies to its `hex` argument:
`hex.replace('urn:', '').replace('uuid:', '').strip(braces).replace('-', '')`. -/
def uuidNormalize (s : List Char) : List Char :=
  removeAll ['-'] (stripChars isBraceChar
    (removeAll ("uuid:".toList) (removeAll ("urn:".toList) s)))

/-- `uuid.UUID(s)` on a string: normalise, require 32 characters, parse
with `int(s, 16)`, require `0 <= int < 1 << 128`.  Returns the 128-bit
value on success, `none` when a `ValueError` is raised. -/
def uuidUUID (s : List Char) : Option Nat :=
  let h := uuidNormalize s
  if h.length == 32 then
    match pyIntVal16 h with
    | some n => if 0 ≤ n && n < 2 ^ 128 then some n.toNat else none
    | none => none
  else none

/-- The identity validator used at every entry point: `uuid.UUID(s)`
inside `try/except (ValueError, TypeError)` succeeds. -/
def uuidValidate (s : String) : Bool :=
  (uuidUUID s.data).isSome

/-- The 128-bit value a validated identifier string denotes. -/
def uuidValue (s : String) : Option Nat :=
  uuidUUID s.data

/-- Python truthiness of `data.get(k)` for a string-valued field:
`None` and the empty string are falsy. -/
def truthy : Option String → Bool
  | none => false
  | some s => !(s == "")

/-! ## Server state: the two registries and the observable transports -/

/-- One delivered chat message as written to a WebSocket or put on an
SSE queue: `\x7b"type": "message", "from_uuid": ..., "text": ...\x7d`. -/
structure MsgItem where
  from_uuid : String
  text : String
deriving DecidableEq

/-- The process-wide state.  `websocket_connections` and `sse_queues`
are the two module-level dicts; WebSocket handles and SSE queues are
identified by numbers.  `chanMsgs ch` / `queueMsgs q` record what each
receiver has observed.  `brokenChan ch` says whether `send_json` on
channel `ch` raises (stale connection); such a write is swallowed by
the source's `except Exception: pass` and delivers nothing. -/
structure ServerState where
  websocket_connections : List (String × Nat)
  sse_queues : List (String × Nat)
  chanMsgs : Nat → List MsgItem
  queueMsgs : Nat → List MsgItem
  brokenChan : Nat → Bool

/-- The state at process start: empty registries, nothing observed. -/
def stEmpty : ServerState :=
  ⟨[], [], fun _ => [], fun _ => [], fun _ => false⟩

/-- `await target_ws.send_json(m)` on a working channel. -/
def writeChan (st : ServerState) (ch : Nat) (m : MsgItem) : ServerState :=
  { st with chanMsgs := fun j => if j = ch then st.chanMsgs ch ++ [m] else st.chanMsgs j }

/-- `await target_queue.put(m)`: enqueue on an SSE queue (never fails). -/
def enqueueSse (st : ServerState) (q : Nat) (m : MsgItem) : ServerState :=
  { st with queueMsgs := fun j => if j = q then st.queueMsgs q ++ [m] else st.queueMsgs j }

/-- Outcome of one delivery attempt as reported to the sender. -/
inductive DeliveryResult where
  | Delivered
  | PeerOffline
deriving DecidableEq

/-! ## Delivery engine, WebSocket-handler variant (lines 82-113)

```python
target_ws = websocket_connections.get(to_uuid)
if target_ws:
    try:
        await target_ws.send_json(...)
    except Exception:
        pass
target_queue = sse_queues.get(to_uuid)
if target_queue:
    await target_queue.put(...)
if not target_ws and not target_queue:
    # "Peer ... is not online"
else:
    # "message_sent"
```
-/
def wsDeliver (st : ServerState) (user_uuid to_uuid text : String) :
    ServerState × DeliveryResult :=
  let target_ws := dictGet st.websocket_connections to_uuid
  let st1 :=
    match target_ws with
    | some ch => if st.brokenChan ch then st else writeChan st ch ⟨user_uuid, text⟩
    | none => st
  let target_queue := dictGet st.sse_queues to_uuid
  let st2 :=
    match target_queue with
    | some q => enqueueSse st1 q ⟨user_uuid, text⟩
    | none => st1
  if target_ws.isNone && target_queue.isNone then (st2, .PeerOffline)
  else (st2, .Delivered)

/-! ## Delivery engine, HTTP-handler variant (lines 205-228)

```python
target_ws = websocket_connections.get(to_uuid)
delivered = False
if target_ws:
    try:
        await target_ws.send_json(...)
        delivered = True
    except Exception:
        pass
target_queue = sse_queues.get(to_uuid)
if target_queue:
    await target_queue.put(...)
    delivered = True
```
-/
def httpDeliver (st : ServerState) (from_uuid to_uuid text : String) :
    ServerState × Bool :=
  let target_ws := dictGet st.websocket_connections to_uuid
  let step1 :=
    match target_ws with
    | some ch =>
      if st.brokenChan ch then (st, false)
      else (writeChan st ch ⟨from_uuid, text⟩, true)
    | none => (st, false)
  let target_queue := dictGet st.sse_queues to_uuid
  match target_queue with
  | some q => (enqueueSse step1.1 q ⟨from_uuid, text⟩, true)
  | none => step1

/-- Responses of `POST /api/send`. -/
inductive HttpResponse where
  | badRequestMissing
  | badRequestInvalid
  | notFound (to_uuid : String)
  | ok
deriving DecidableEq

/-- `send_message_http` (lines 175-239), after JSON parsing: require the
three fields truthy, validate both identifiers, deliver, map the
`delivered` flag to the response. -/
def send_message_http (st : ServerState)
    (from_uuid to_uuid text : Option String) : ServerState × HttpResponse :=
  if !truthy from_uuid || !truthy to_uuid || !truthy text then
    (st, .badRequestMissing)
  else if !(uuidValidate (from_uuid.getD "") && uuidValidate (to_uuid.getD "")) then
    (st, .badRequestInvalid)
  else
    let r := httpDeliver st (from_uuid.getD "") (to_uuid.getD "") (text.getD "")
    if !r.2 then (r.1, .notFound (to_uuid.getD ""))
    else (r.1, .ok)

/-! ## WebSocket session handler (lines 26-122) -/

/-- One inbound event of a bidirectional session, after
`data = await websocket.receive_json()`; the fields are `data.get(...)`
results (`none` when absent). -/
inductive WsEvent where
  | register (uuid : Option String)
  | message (to_uuid : Option String) (text : Option String)
  | other
deriving DecidableEq

/-- What the handler sends back on the session's own socket. -/
inductive WsOut where
  | errorUuidRequired
  | errorInvalidUuid
  | errorRegisterFirst
  | errorFieldsRequired
  | errorPeerNotOnline (to_uuid : String)
  | registered (uuid : String)
  | message_sent (to_uuid : String)
deriving DecidableEq

/-- Result of processing one inbound event: the session's `user_uuid`
local variable, the shared state, and what was emitted to the client. -/
structure WsStepResult where
  user_uuid : Option String
  state : ServerState
  out : List WsOut

/-- One iteration of the `while True` receive loop of
`websocket_endpoint`, for the session owning channel `self`.  Note that
on a `register` event the source assigns
`user_uuid = data.get("uuid")` before any check, so the local binding
changes even when the identifier is missing or invalid. -/
def wsStep (self : Nat) (user_uuid : Option String) (st : ServerState)
    (ev : WsEvent) : WsStepResult :=
  match ev with
  | .register u =>
    let user_uuid := u
    if !truthy user_uuid then ⟨user_uuid, st, [.errorUuidRequired]⟩
    else if !uuidValidate (user_uuid.getD "") then ⟨user_uuid, st, [.errorInvalidUuid]⟩
    else
      ⟨user_uuid,
        { st with websocket_connections :=
            dictSet st.websocket_connections (user_uuid.getD "") self },
        [.registered (user_uuid.getD "")]⟩
  | .message to_uuid text =>
    if !truthy user_uuid then ⟨user_uuid, st, [.errorRegisterFirst]⟩
    else if !truthy to_uuid || !truthy text then ⟨user_uuid, st, [.errorFieldsRequired]⟩
    else
      let r := wsDeliver st (user_uuid.getD "") (to_uuid.getD "") (text.getD "")
      match r.2 with
      | .PeerOffline => ⟨user_uuid, r.1, [.errorPeerNotOnline (to_uuid.getD "")]⟩
      | .Delivered => ⟨user_uuid, r.1, [.message_sent (to_uuid.getD "")]⟩
  | .other => ⟨user_uuid, st, []⟩

/-- The cleanup run on every exit path of `websocket_endpoint` (both the
`WebSocketDisconnect` handler and the generic `except Exception`
handler): `if user_uuid: websocket_connections.pop(user_uuid, None)`. -/
def wsCleanup (user_uuid : Option String) (st : ServerState) : ServerState :=
  if truthy user_uuid then
    { st with websocket_connections := dictPop st.websocket_connections (user_uuid.getD "") }
  else st

/-- A whole bidirectional session owning channel `self`: process the
events received before the connection ends, then run the cleanup. -/
def runWsSession (self : Nat) (st : ServerState) (events : List WsEvent) : ServerState :=
  let fin := events.foldl
    (fun acc ev =>
      let r := wsStep self acc.1 acc.2 ev
      (r.user_uuid, r.state))
    ((none : Option String), st)
  wsCleanup fin.1 fin.2

/-! ## SSE session handler (lines 125-172) -/

/-- How an SSE subscription request starts. -/
inductive SseStart where
  | badRequestMissing
  | badRequestInvalid
  | connected (uuid : String)
deriving DecidableEq

/-- Start of `sse_endpoint` with query parameter `uuid` and a fresh
queue `q`: require the parameter truthy, validate it, then install the
queue (`sse_queues[user_uuid] = queue`). -/
def sse_endpoint (st : ServerState) (user_uuid : Option String) (q : Nat) :
    ServerState × SseStart :=
  if !truthy user_uuid then (st, .badRequestMissing)
  else if !uuidValidate (user_uuid.getD "") then (st, .badRequestInvalid)
  else
    ({ st with sse_queues := dictSet st.sse_queues (user_uuid.getD "") q },
      .connected (user_uuid.getD ""))

/-- Cleanup of `sse_endpoint` on cancellation:
`sse_queues.pop(user_uuid, None)`. -/
def sseCleanup (user_uuid : String) (st : ServerState) : ServerState :=
  { st with sse_queues := dictPop st.sse_queues user_uuid }

/-! ## The spec's canonical identifier layout, and concrete scenario states -/

/-- The canonical hyphenated 128-bit layout from the spec (the standard
UUID textual form): five all-hexadecimal groups of lengths
8-4-4-4-12 separated by single hyphens.  Stated from the spec's words,
to be compared with the validator translated from the source. -/
def IsCanonicalUUID (s : List Char) : Prop :=
  ∃ a b c d e : List Char,
    a.length = 8 ∧ b.length = 4 ∧ c.length = 4 ∧ d.length = 4 ∧ e.length = 12 ∧
    (∀ x ∈ a ++ b ++ c ++ d ++ e, isHexDigitChar x = true) ∧
    s = a ++ '-' :: (b ++ '-' :: (c ++ '-' :: (d ++ '-' :: e)))

/-- A valid identifier in canonical form, used in concrete scenarios. -/
def uuidA : String := "11111111-1111-1111-1111-111111111111"

/-- A second valid identifier in canonical form. -/
def uuidB : String := "22222222-2222-2222-2222-222222222222"

/-- A state in which `uuidB` has a WebSocket slot whose underlying
connection is broken (every `send_json` on it raises), and no SSE
queue. -/
def stBroken : ServerState :=
  ⟨[(uuidB, 0)], [], fun _ => [], fun _ => [], fun _ => true⟩

/-- A state in which `uuidB` has both a working WebSocket slot and an
SSE queue. -/
def stBoth : ServerState :=
  ⟨[(uuidB, 1)], [(uuidB, 2)], fun _ => [], fun _ => [], fun _ => false⟩

/-- A state in which `uuidB` has an SSE queue only. -/
def stQueueB : ServerState :=
  ⟨[], [(uuidB, 5)], fun _ => [], fun _ => [], fun _ => false⟩

/-! ## Dictionary lemmas -/

theorem dictGet_cons {α : Type} (p : String × α) (d : List (String × α)) (k : String) :
    dictGet (p :: d) k = if p.1 = k then some p.2 else dictGet d k := by
  by_cases h : p.1 = k <;> simp [dictGet, List.find?_cons, h]

theorem dictGet_set_self {α : Type} (d : List (String × α)) (k : String) (v : α) :
    dictGet (dictSet d k v) k = some v := by
  induction d with
  | nil => simp [dictSet, dictGet_cons]
  | cons p rest ih =>
    by_cases h : p.1 = k
    · simp [dictSet, h, dictGet_cons]
    · simp [dictSet, h, dictGet_cons, ih]

theorem dictGet_set_ne {α : Type} (d : List (String × α)) (k k' : String) (v : α)
    (h : k' ≠ k) : dictGet (dictSet d k v) k' = dictGet d k' := by
  have hk : ¬ (k = k') := fun hh => h hh.symm
  induction d with
  | nil => simp [dictSet, dictGet_cons, hk]
  | cons p rest ih =>
    by_cases hp : p.1 = k
    · simp [dictSet, hp, dictGet_cons, hk]
    · simp [dictSet, hp, dictGet_cons, ih]

theorem dictGet_pop_self {α : Type} (d : List (String × α)) (k : String) :
    dictGet (dictPop d k) k = none := by
  induction d with
  | nil => rfl
  | cons p rest ih =>
    by_cases h : p.1 = k
    · simpa [dictPop, List.filter_cons, h] using ih
    · simpa [dictPop, List.filter_cons, h, dictGet_cons] using ih

theorem dictGet_pop_ne {α : Type} (d : List (String × α)) (k k' : String)
    (h : k' ≠ k) : dictGet (dictPop d k) k' = dictGet d k' := by
  have hke : ¬ (k = k') := fun hh => h hh.symm
  induction d with
  | nil => rfl
  | cons p rest ih =>
    by_cases hp : p.1 = k
    · simpa [dictPop, List.filter_cons, hp, dictGet_cons, hke] using ih
    · by_cases hk : p.1 = k'
      · simp [dictPop, List.filter_cons, hp, dictGet_cons, hk, h]
      · simpa [dictPop, List.filter_cons, hp, dictGet_cons, hk] using ih

/-! ## C1, C2: delivery outcome versus registry slots -/

/-- C1 (amended): in the WebSocket handler a delivery reports
`Delivered` precisely when at least one slot exists for the recipient
and `PeerOffline` precisely when neither exists, regardless of write
failures; in the HTTP handler the `delivered` flag is set precisely
when the WebSocket write actually succeeded or an SSE queue exists, so
there a broken WebSocket slot with no SSE queue yields the
peer-offline outcome even though a slot exists. -/
theorem C1_delivery_outcome :
    ∀ (st : ServerState) (u to_uuid text : String),
      ((wsDeliver st u to_uuid text).2 = .PeerOffline ↔
        (dictGet st.websocket_connections to_uuid = none ∧
          dictGet st.sse_queues to_uuid = none)) ∧
      ((wsDeliver st u to_uuid text).2 = .Delivered ↔
        (dictGet st.websocket_connections to_uuid ≠ none ∨
          dictGet st.sse_queues to_uuid ≠ none)) ∧
      ((httpDeliver st u to_uuid text).2 = true ↔
        ((∃ ch, dictGet st.websocket_connections to_uuid = some ch ∧
            st.brokenChan ch = false) ∨
          (∃ q, dictGet st.sse_queues to_uuid = some q))) := by
  intro st u to_uuid text
  refine ⟨?_, ?_, ?_⟩
  · cases hws : dictGet st.websocket_connections to_uuid <;>
      cases hq : dictGet st.sse_queues to_uuid <;>
        simp [wsDeliver, hws, hq]
  · cases hws : dictGet st.websocket_connections to_uuid <;>
      cases hq : dictGet st.sse_queues to_uuid <;>
        simp [wsDeliver, hws, hq]
  · cases hws : dictGet st.websocket_connections to_uuid <;>
      cases hq : dictGet st.sse_queues to_uuid <;>
        simp [httpDeliver, hws, hq]
    case some.none ch =>
      cases hbr : st.brokenChan ch <;> simp [hbr]

/-- C1 (counterexample): in state `stBroken` the recipient `uuidB` has
a WebSocket slot (present but broken) and no SSE queue, yet the HTTP
send path reports the peer-offline outcome (a 404), contradicting
"PeerOffline if and only if neither slot exists" and "a failed write
never by itself turns the result into PeerOffline". -/
theorem C1_counterexample :
    dictGet stBroken.websocket_connections uuidB = some 0 ∧
    (send_message_http stBroken (some uuidA) (some uuidB) (some "hi")).2 =
      .notFound uuidB := by
  exact ⟨by rfl, by decide⟩

/-- C2 (counterexample): same state, same sender, same recipient, same
text, but the WebSocket-handler delivery reports `Delivered` while the
HTTP-handler delivery reports failure (peer offline). -/
theorem C2_counterexample :
    (wsDeliver stBroken uuidA uuidB "hi").2 = .Delivered ∧
    (httpDeliver stBroken uuidA uuidB "hi").2 = false := by
  decide

/-- C2 (amended): for the same registry state and inputs, the
WebSocket-handler delivery and the HTTP-handler delivery perform the
same channel/queue writes (identical resulting state); their
Delivered-versus-PeerOffline outcomes agree whenever every present
WebSocket slot for the recipient accepts the write, and can differ
only when that write fails and no SSE queue exists. -/
theorem C2_ws_http_agree :
    ∀ (st : ServerState) (u to_uuid text : String),
      (wsDeliver st u to_uuid text).1 = (httpDeliver st u to_uuid text).1 ∧
      ((∀ ch, dictGet st.websocket_connections to_uuid = some ch →
          st.brokenChan ch = false) →
        ((wsDeliver st u to_uuid text).2 = .Delivered ↔
          (httpDeliver st u to_uuid text).2 = true)) := by
  intro st u to_uuid text
  constructor
  · cases hws : dictGet st.websocket_connections to_uuid <;>
      cases hq : dictGet st.sse_queues to_uuid <;>
        simp [wsDeliver, httpDeliver, hws, hq]
    case some.none ch =>
      cases hbr : st.brokenChan ch <;> simp [hbr]
    case some.some ch q =>
      cases hbr : st.brokenChan ch <;> simp [hbr]
  · intro hok
    cases hws : dictGet st.websocket_connections to_uuid <;>
      cases hq : dictGet st.sse_queues to_uuid <;>
        simp [wsDeliver, httpDeliver, hws, hq]
    case some.none ch =>
      simp [hok ch hws]

/-- C2 witness: at the concrete state `stBoth` (no broken slot) the
writes and the outcomes coincide. -/
theorem C2_ws_http_agree_witness :
    (wsDeliver stBoth uuidA uuidB "hi").1 = (httpDeliver stBoth uuidA uuidB "hi").1 ∧
    ((wsDeliver stBoth uuidA uuidB "hi").2 = .Delivered ↔
      (httpDeliver stBoth uuidA uuidB "hi").2 = true) :=
  ⟨(C2_ws_http_agree stBoth uuidA uuidB "hi").1,
    (C2_ws_http_agree stBoth uuidA uuidB "hi").2 (fun _ _ => rfl)⟩

/-! ## C7: delivery with both slots present -/

/-- C7: when the recipient has both a WebSocket slot (whose write
succeeds) and an SSE queue, both delivery paths write the message to
both transports — both receivers observe it — and report the
delivered outcome to the sender. -/
theorem C7_both_slots :
    ∀ (st : ServerState) (u to_uuid text : String) (ch q : Nat),
      dictGet st.websocket_connections to_uuid = some ch →
      dictGet st.sse_queues to_uuid = some q →
      st.brokenChan ch = false →
      ((wsDeliver st u to_uuid text).2 = .Delivered ∧
        (wsDeliver st u to_uuid text).1.chanMsgs ch = st.chanMsgs ch ++ [⟨u, text⟩] ∧
        (wsDeliver st u to_uuid text).1.queueMsgs q = st.queueMsgs q ++ [⟨u, text⟩]) ∧
      ((httpDeliver st u to_uuid text).2 = true ∧
        (httpDeliver st u to_uuid text).1.chanMsgs ch = st.chanMsgs ch ++ [⟨u, text⟩] ∧
        (httpDeliver st u to_uuid text).1.queueMsgs q = st.queueMsgs q ++ [⟨u, text⟩]) := by
  intro st u to_uuid text ch q hws hq hbr
  simp [wsDeliver, httpDeliver, hws, hq, hbr, writeChan, enqueueSse]

/-- C7 witness at the concrete state `stBoth`. -/
theorem C7_both_slots_witness :
    ((wsDeliver stBoth uuidA uuidB "hi").2 = .Delivered ∧
      (wsDeliver stBoth uuidA uuidB "hi").1.chanMsgs 1 = stBoth.chanMsgs 1 ++ [⟨uuidA, "hi"⟩] ∧
      (wsDeliver stBoth uuidA uuidB "hi").1.queueMsgs 2 = stBoth.queueMsgs 2 ++ [⟨uuidA, "hi"⟩]) ∧
    ((httpDeliver stBoth uuidA uuidB "hi").2 = true ∧
      (httpDeliver stBoth uuidA uuidB "hi").1.chanMsgs 1 = stBoth.chanMsgs 1 ++ [⟨uuidA, "hi"⟩] ∧
      (httpDeliver stBoth uuidA uuidB "hi").1.queueMsgs 2 = stBoth.queueMsgs 2 ++ [⟨uuidA, "hi"⟩]) :=
  C7_both_slots stBoth uuidA uuidB "hi" 1 2 (by decide) (by decide) rfl

/-! ## C8: frame property of WebSocket disconnect cleanup -/

/-- C8: the cleanup of a WebSocket session bound to identifier `X`
removes `X`'s WebSocket slot and changes nothing else: the SSE
registry, the slots of every other identifier, and everything the
receivers have observed are untouched. -/
theorem C8_disconnect_frame :
    ∀ (st : ServerState) (X Y : String), X ≠ "" → Y ≠ X →
      dictGet (wsCleanup (some X) st).websocket_connections X = none ∧
      dictGet (wsCleanup (some X) st).websocket_connections Y =
        dictGet st.websocket_connections Y ∧
      (wsCleanup (some X) st).sse_queues = st.sse_queues ∧
      (wsCleanup (some X) st).chanMsgs = st.chanMsgs ∧
      (wsCleanup (some X) st).queueMsgs = st.queueMsgs ∧
      (wsCleanup (some X) st).brokenChan = st.brokenChan := by
  intro st X Y hX hY
  have ht : (X == "") = false := beq_eq_false_iff_ne.mpr hX
  simp [wsCleanup, truthy, ht, dictGet_pop_self, dictGet_pop_ne _ _ _ hY]

/-- C8 witness at the concrete state `stBoth`. -/
theorem C8_disconnect_frame_witness :
    dictGet (wsCleanup (some uuidB) stBoth).websocket_connections uuidB = none ∧
    dictGet (wsCleanup (some uuidB) stBoth).websocket_connections uuidA =
      dictGet stBoth.websocket_connections uuidA ∧
    (wsCleanup (some uuidB) stBoth).sse_queues = stBoth.sse_queues ∧
    (wsCleanup (some uuidB) stBoth).chanMsgs = stBoth.chanMsgs ∧
    (wsCleanup (some uuidB) stBoth).queueMsgs = stBoth.queueMsgs ∧
    (wsCleanup (some uuidB) stBoth).brokenChan = stBoth.brokenChan :=
  C8_disconnect_frame stBoth uuidB uuidA (by decide) (by decide)

/-! ## C3, C4, C5: session handler behaviour on register and message events -/

/-- C3 (code evaluated at the failing input): a session registers the
valid identifier `uuidA`, then receives a further `register` event with
an invalid identifier, then disconnects.  Because the source assigns
`user_uuid = data.get("uuid")` before validating, the cleanup pops the
invalid string instead of `uuidA`, and the ended session's channel (7)
is still reachable through the registry — the central lifecycle
invariant is violated. -/
theorem C3_stale_entry_after_invalid_reregister :
    dictGet (runWsSession 7 stEmpty
        [.register (some uuidA), .register (some "not-a-uuid")]).websocket_connections
      uuidA = some 7 := by
  decide

/-- C4 (counterexample): a registered session sends a `message` event
whose `to_uuid` is malformed.  The handler performs no format check:
it looks the raw string up in both registries and answers with the
delivery outcome ("Peer ... is not online"), not with an
invalid-identifier rejection. -/
theorem C4_counterexample :
    (wsStep 7 (some uuidA) stEmpty (.message (some "not-a-uuid") (some "hi"))).out =
      [.errorPeerNotOnline "not-a-uuid"] := by
  decide

/-- C4 (amended): the HTTP send path does reject a malformed recipient
identifier with the invalid-UUID error before any registry interaction
(the state is returned unchanged, nothing is written); the WebSocket
message path performs no format validation of `to_uuid` at all — for a
malformed recipient with no registry slots it attempts the delivery
and reports the ordinary peer-offline outcome, leaving the state
unchanged only because both lookups miss. -/
theorem C4_invalid_recipient_paths :
    (∀ (st : ServerState) (from_uuid to_uuid text : Option String),
      truthy from_uuid = true → truthy to_uuid = true → truthy text = true →
      uuidValidate (to_uuid.getD "") = false →
      send_message_http st from_uuid to_uuid text = (st, .badRequestInvalid)) ∧
    (∀ (st : ServerState) (self : Nat) (u to_uuid text : String),
      u ≠ "" → to_uuid ≠ "" → text ≠ "" →
      uuidValidate to_uuid = false →
      dictGet st.websocket_connections to_uuid = none →
      dictGet st.sse_queues to_uuid = none →
      wsStep self (some u) st (.message (some to_uuid) (some text)) =
        ⟨some u, st, [.errorPeerNotOnline to_uuid]⟩) := by
  constructor
  · intro st from_uuid to_uuid text hf ht hx hval
    simp [send_message_http, hf, ht, hx, hval]
  · intro st self u to_uuid text hu hto htext hval hws hq
    have hu' : (u == "") = false := beq_eq_false_iff_ne.mpr hu
    have hto' : (to_uuid == "") = false := beq_eq_false_iff_ne.mpr hto
    have htext' : (text == "") = false := beq_eq_false_iff_ne.mpr htext
    simp [wsStep, truthy, hu', hto', htext', wsDeliver, hws, hq]

/-- C4 witness: instantiating both parts at concrete malformed inputs. -/
theorem C4_invalid_recipient_paths_witness :
    send_message_http stEmpty (some uuidA) (some "not-a-uuid") (some "hi") =
      (stEmpty, .badRequestInvalid) ∧
    wsStep 7 (some uuidA) stEmpty (.message (some "not-a-uuid") (some "hi")) =
      ⟨some uuidA, stEmpty, [.errorPeerNotOnline "not-a-uuid"]⟩ :=
  ⟨C4_invalid_recipient_paths.1 stEmpty (some uuidA) (some "not-a-uuid") (some "hi")
      (by decide) (by decide) (by decide) (by decide),
    C4_invalid_recipient_paths.2 stEmpty 7 uuidA "not-a-uuid" "hi"
      (by decide) (by decide) (by decide) (by decide) (by decide) (by decide)⟩

/-- C5 (code evaluated at the failing input): an unregistered session
receives a `register` event with the invalid identifier `"bad"`.  The
handler emits the invalid-UUID error and the registry is unchanged,
but the session's `user_uuid` variable is now `"bad"` and truthy, so
the session does not "remain Unregistered": a following `message`
event is not rejected with "Register first" — it is delivered to the
recipient's SSE queue with sender `"bad"`. -/
theorem C5_invalid_register_changes_session :
    (wsStep 7 none stQueueB (.register (some "bad"))).user_uuid = some "bad" ∧
    (wsStep 7 none stQueueB (.register (some "bad"))).out = [.errorInvalidUuid] ∧
    (wsStep 7 none stQueueB (.register (some "bad"))).state.websocket_connections =
      stQueueB.websocket_connections ∧
    (wsStep 7 (wsStep 7 none stQueueB (.register (some "bad"))).user_uuid
        (wsStep 7 none stQueueB (.register (some "bad"))).state
        (.message (some uuidB) (some "hi"))).out = [.message_sent uuidB] ∧
    (wsStep 7 (wsStep 7 none stQueueB (.register (some "bad"))).user_uuid
        (wsStep 7 none stQueueB (.register (some "bad"))).state
        (.message (some uuidB) (some "hi"))).state.queueMsgs 5 = [⟨"bad", "hi"⟩] := by
  refine ⟨by decide, by decide, by decide, by decide, by decide⟩

/-! ## Validator facts needed by C9 and C10 -/

theorem uuidValidate_ne_empty {X : String} (h : uuidValidate X = true) :
    (X == "") = false := by
  cases hx : X == ""
  · rfl
  · exact absurd (eq_of_beq hx ▸ h) (by decide)

/-- A successful `register` event: the source stores the channel under
the raw identifier string and acknowledges. -/
theorem wsStep_register_valid (self : Nat) (prev : Option String) (st : ServerState)
    (X : String) (h : uuidValidate X = true) :
    wsStep self prev st (.register (some X)) =
      ⟨some X,
        { st with websocket_connections := dictSet st.websocket_connections X self },
        [.registered X]⟩ := by
  simp [wsStep, truthy, uuidValidate_ne_empty h, h]

/-- Cleanup for a truthy identifier pops exactly that key. -/
theorem wsCleanup_some (X : String) (st : ServerState) (h : (X == "") = false) :
    wsCleanup (some X) st =
      { st with websocket_connections := dictPop st.websocket_connections X } := by
  simp [wsCleanup, truthy, h]

/-- A successful SSE subscription start installs the queue under the
raw identifier string. -/
theorem sse_endpoint_valid (st : ServerState) (X : String) (q : Nat)
    (h : uuidValidate X = true) :
    sse_endpoint st (some X) q =
      ({ st with sse_queues := dictSet st.sse_queues X q }, .connected X) := by
  simp [sse_endpoint, truthy, uuidValidate_ne_empty h, h]

/-! ## C9: unregistration is keyed by identifier, not by session -/

/-- C9: two sessions register the same identifier `X` on the same
transport; the later registration overwrites the slot, and when the
older session ends, its cleanup pops the key `X` — removing the newer
session's channel or queue — after which delivery to `X` reports peer
offline.  Shown for both transports: two WebSocket sessions (channels
`ch1`, `ch2`), and two SSE subscriptions (queues `q1`, `q2`). -/
theorem C9_unregistration_keyed_by_identifier :
    ∀ (st : ServerState) (X u text : String) (ch1 ch2 q1 q2 : Nat),
      uuidValidate X = true →
      dictGet st.websocket_connections X = none →
      dictGet st.sse_queues X = none →
      (dictGet (wsStep ch2 none (wsStep ch1 none st (.register (some X))).state
          (.register (some X))).state.websocket_connections X = some ch2 ∧
        dictGet (wsCleanup (wsStep ch1 none st (.register (some X))).user_uuid
            (wsStep ch2 none (wsStep ch1 none st (.register (some X))).state
              (.register (some X))).state).websocket_connections X = none ∧
        (wsDeliver (wsCleanup (wsStep ch1 none st (.register (some X))).user_uuid
            (wsStep ch2 none (wsStep ch1 none st (.register (some X))).state
              (.register (some X))).state) u X text).2 = .PeerOffline) ∧
      (dictGet (sse_endpoint (sse_endpoint st (some X) q1).1 (some X) q2).1.sse_queues
          X = some q2 ∧
        dictGet (sseCleanup X
            (sse_endpoint (sse_endpoint st (some X) q1).1 (some X) q2).1).sse_queues
          X = none ∧
        (httpDeliver (sseCleanup X
            (sse_endpoint (sse_endpoint st (some X) q1).1 (some X) q2).1) u X text).2 =
          false) := by
  intro st X u text ch1 ch2 q1 q2 hX hws hsse
  have hXe := uuidValidate_ne_empty hX
  simp [wsStep_register_valid _ _ _ _ hX, sse_endpoint_valid _ _ _ hX,
    wsCleanup_some _ _ hXe, sseCleanup, wsDeliver, httpDeliver,
    dictGet_set_self, dictGet_pop_self, hws, hsse]

/-- C9 witness: the scenario at the empty start state with `uuidA`. -/
theorem C9_witness :
    (dictGet (wsStep 2 none (wsStep 1 none stEmpty (.register (some uuidA))).state
        (.register (some uuidA))).state.websocket_connections uuidA = some 2 ∧
      dictGet (wsCleanup (wsStep 1 none stEmpty (.register (some uuidA))).user_uuid
          (wsStep 2 none (wsStep 1 none stEmpty (.register (some uuidA))).state
            (.register (some uuidA))).state).websocket_connections uuidA = none ∧
      (wsDeliver (wsCleanup (wsStep 1 none stEmpty (.register (some uuidA))).user_uuid
          (wsStep 2 none (wsStep 1 none stEmpty (.register (some uuidA))).state
            (.register (some uuidA))).state) "s" uuidA "hi").2 = .PeerOffline) ∧
    (dictGet (sse_endpoint (sse_endpoint stEmpty (some uuidA) 3).1 (some uuidA) 4).1.sse_queues
        uuidA = some 4 ∧
      dictGet (sseCleanup uuidA
          (sse_endpoint (sse_endpoint stEmpty (some uuidA) 3).1 (some uuidA) 4).1).sse_queues
        uuidA = none ∧
      (httpDeliver (sseCleanup uuidA
          (sse_endpoint (sse_endpoint stEmpty (some uuidA) 3).1 (some uuidA) 4).1)
          "s" uuidA "hi").2 = false) :=
  C9_unregistration_keyed_by_identifier stEmpty uuidA "s" "hi" 1 2 3 4
    (by decide) (by decide) (by decide)

/-! ## C10: registry keys are compared as exact raw strings -/

/-- C10: two different spellings `X` and `Y` that both validate and
denote the same 128-bit value name distinct registry keys: after a
session registers under `X`, a delivery addressed to `Y` (with no
slots of its own) reports peer offline on both delivery paths. -/
theorem C10_registry_keys_raw_strings :
    ∀ (st : ServerState) (X Y u text : String) (ch : Nat),
      X ≠ Y →
      uuidValidate X = true → uuidValidate Y = true →
      uuidValue X = uuidValue Y →
      dictGet st.websocket_connections Y = none →
      dictGet st.sse_queues Y = none →
      (wsDeliver (wsStep ch none st (.register (some X))).state u Y text).2 =
        .PeerOffline ∧
      (httpDeliver (wsStep ch none st (.register (some X))).state u Y text).2 = false := by
  intro st X Y u text ch hne hX hY hval hws hq
  simp [wsStep_register_valid _ _ _ _ hX, wsDeliver, httpDeliver,
    dictGet_set_ne _ _ _ _ (fun hh => hne hh.symm), hws, hq]

/-- C10 witness: lower- versus upper-case spellings of one value. -/
theorem C10_witness :
    (wsDeliver (wsStep 1 none stEmpty
        (.register (some "abcdef78-1234-5678-1234-567812345678"))).state
        "s" "ABCDEF78-1234-5678-1234-567812345678" "hi").2 = .PeerOffline ∧
    (httpDeliver (wsStep 1 none stEmpty
        (.register (some "abcdef78-1234-5678-1234-567812345678"))).state
        "s" "ABCDEF78-1234-5678-1234-567812345678" "hi").2 = false :=
  C10_registry_keys_raw_strings stEmpty "abcdef78-1234-5678-1234-567812345678"
    "ABCDEF78-1234-5678-1234-567812345678" "s" "hi" 1
    (by decide) (by decide) (by decide) (by decide) (by decide) (by decide)

/-! ## Character and pattern lemmas for the validator -/

theorem hex_beq_false {c x : Char} (hc : isHexDigitChar c = true)
    (hx : isHexDigitChar x = false) : (c == x) = false := by
  cases h : c == x
  · rfl
  · rw [eq_of_beq h, hx] at hc
    exact Bool.noConfusion hc

theorem mem_of_leadsWith {pat t : List Char} {x : Char} (hx : x ∈ pat)
    (h : leadsWith pat t = true) : x ∈ t := by
  induction pat generalizing t with
  | nil => cases hx
  | cons p ps ih =>
    cases t with
    | nil => simp [leadsWith] at h
    | cons c cs =>
      simp only [leadsWith, Bool.and_eq_true, beq_iff_eq] at h
      rcases List.mem_cons.mp hx with h1 | h1
      · exact h1 ▸ h.1 ▸ List.mem_cons_self c cs
      · exact List.mem_cons_of_mem c (ih h1 h.2)

theorem removeAllGo_eq_self {pat : List Char} {x : Char} (hx : x ∈ pat) :
    ∀ (fuel : Nat) (s : List Char), x ∉ s → removeAllGo pat fuel s = s := by
  intro fuel
  induction fuel with
  | zero => intro s _; cases s <;> rfl
  | succ f ih =>
    intro s hs
    cases s with
    | nil => rfl
    | cons c cs =>
      have hlw : leadsWith pat (c :: cs) = false := by
        cases hl : leadsWith pat (c :: cs)
        · rfl
        · exact absurd (mem_of_leadsWith hx hl) hs
      have hr := ih cs (fun h => hs (List.mem_cons_of_mem _ h))
      simp [removeAllGo, hlw, hr]

theorem removeAll_eq_self {pat s : List Char} {x : Char} (hx : x ∈ pat)
    (hs : x ∉ s) : removeAll pat s = s :=
  removeAllGo_eq_self hx s.length s hs

theorem removeAllGo_single_eq_filter (x : Char) :
    ∀ (fuel : Nat) (s : List Char), s.length ≤ fuel →
      removeAllGo [x] fuel s = s.filter (fun c => !(c == x)) := by
  intro fuel
  induction fuel with
  | zero =>
    intro s hs
    have hnil : s = [] := List.length_eq_zero.mp (Nat.le_zero.mp hs)
    subst hnil
    rfl
  | succ f ih =>
    intro s hs
    cases s with
    | nil => rfl
    | cons c cs =>
      have hcs : cs.length ≤ f := Nat.le_of_succ_le_succ (by simpa using hs)
      by_cases h : x = c
      · subst h
        simp [removeAllGo, leadsWith, List.filter_cons, ih cs hcs]
      · have : (x == c) = false := beq_eq_false_iff_ne.mpr h
        have hcx : (c == x) = false := beq_eq_false_iff_ne.mpr (fun hh => h hh.symm)
        simp [removeAllGo, leadsWith, this, hcx, List.filter_cons, ih cs hcs]

theorem removeAll_single_eq_filter (x : Char) (s : List Char) :
    removeAll [x] s = s.filter (fun c => !(c == x)) :=
  removeAllGo_single_eq_filter x s.length s (Nat.le_refl _)

theorem dropWhile_eq_self_of_forall {p : Char → Bool} {s : List Char}
    (h : ∀ x ∈ s, p x = false) : s.dropWhile p = s := by
  cases s with
  | nil => rfl
  | cons c cs => simp [List.dropWhile_cons, h c (List.mem_cons_self c cs)]

theorem stripChars_eq_self {p : Char → Bool} {s : List Char}
    (h : ∀ x ∈ s, p x = false) : stripChars p s = s := by
  unfold stripChars
  rw [dropWhile_eq_self_of_forall h,
    dropWhile_eq_self_of_forall (fun x hx => h x (List.mem_reverse.mp hx)),
    List.reverse_reverse]

theorem hexDigitVal_lt {c : Char} (h : isHexDigitChar c = true) : hexDigitVal c < 16 := by
  have h' : (48 ≤ c.toNat ∧ c.toNat ≤ 57) ∨ (97 ≤ c.toNat ∧ c.toNat ≤ 102) ∨
      (65 ≤ c.toNat ∧ c.toNat ≤ 70) := by
    simpa [isHexDigitChar, or_assoc] using h
  unfold hexDigitVal
  split_ifs with h1 h2
  · simp only [Bool.and_eq_true, decide_eq_true_eq] at h1
    omega
  · simp only [Bool.and_eq_true, decide_eq_true_eq] at h2
    omega
  · simp only [Bool.and_eq_true, decide_eq_true_eq, Bool.not_eq_true,
      Bool.and_eq_false_iff, decide_eq_false_iff_not] at h1 h2
    omega

theorem parseHexDigitsAux_all_hex :
    ∀ (s : List Char) (acc : Nat), (∀ x ∈ s, isHexDigitChar x = true) →
      ∃ n, parseHexDigitsAux s acc = some n ∧ n < (acc + 1) * 16 ^ s.length := by
  intro s
  induction s with
  | nil =>
    intro acc _
    exact ⟨acc, rfl, by simp⟩
  | cons c cs ih =>
    intro acc h
    have hc : isHexDigitChar c = true := h c (List.mem_cons_self c cs)
    have hcu : (c == '_') = false := hex_beq_false hc (by decide)
    have hv : hexDigitVal c < 16 := hexDigitVal_lt hc
    obtain ⟨n, hn, hb⟩ := ih (acc * 16 + hexDigitVal c)
      (fun x hx => h x (List.mem_cons_of_mem _ hx))
    refine ⟨n, ?_, ?_⟩
    · rw [parseHexDigitsAux.eq_def]
      simp [hcu, hc, hn]
    · have hstep : (acc * 16 + hexDigitVal c + 1) * 16 ^ cs.length ≤
          (acc + 1) * 16 ^ (c :: cs).length := by
        have h16 : acc * 16 + hexDigitVal c + 1 ≤ (acc + 1) * 16 := by omega
        calc (acc * 16 + hexDigitVal c + 1) * 16 ^ cs.length
            ≤ ((acc + 1) * 16) * 16 ^ cs.length := Nat.mul_le_mul_right _ h16
          _ = (acc + 1) * 16 ^ (c :: cs).length := by
              simp [List.length_cons, pow_succ]
              ring
      exact Nat.lt_of_lt_of_le hb hstep

theorem parseHexDigits_all_hex {s : List Char} (hne : s ≠ [])
    (h : ∀ x ∈ s, isHexDigitChar x = true) :
    ∃ n, parseHexDigits s = some n ∧ n < 16 ^ s.length := by
  cases s with
  | nil => exact absurd rfl hne
  | cons c cs =>
    have hc : isHexDigitChar c = true := h c (List.mem_cons_self c cs)
    have hv : hexDigitVal c < 16 := hexDigitVal_lt hc
    obtain ⟨n, hn, hb⟩ := parseHexDigitsAux_all_hex cs (hexDigitVal c)
      (fun x hx => h x (List.mem_cons_of_mem _ hx))
    refine ⟨n, by simp [parseHexDigits, hc, hn], ?_⟩
    have : (hexDigitVal c + 1) * 16 ^ cs.length ≤ 16 * 16 ^ cs.length :=
      Nat.mul_le_mul_right _ (by omega)
    calc n < (hexDigitVal c + 1) * 16 ^ cs.length := hb
      _ ≤ 16 * 16 ^ cs.length := this
      _ = 16 ^ (c :: cs).length := by
          simp [List.length_cons, pow_succ]
          ring

theorem isPySpace_eq_false_of_hex {c : Char} (h : isHexDigitChar c = true) :
    isPySpace c = false := by
  simp [isPySpace,
    hex_beq_false h (by decide : isHexDigitChar ' ' = false),
    hex_beq_false h (by decide : isHexDigitChar '\t' = false),
    hex_beq_false h (by decide : isHexDigitChar '\n' = false),
    hex_beq_false h (by decide : isHexDigitChar '\r' = false),
    hex_beq_false h (by decide : isHexDigitChar '\x0b' = false),
    hex_beq_false h (by decide : isHexDigitChar '\x0c' = false)]

theorem pyIntVal16_all_hex {s : List Char} (hne : s ≠ [])
    (hhex : ∀ x ∈ s, isHexDigitChar x = true) :
    ∃ n : Nat, pyIntVal16 s = some (n : Int) ∧ n < 16 ^ s.length := by
  have hsp : stripChars isPySpace s = s :=
    stripChars_eq_self (fun x hx => isPySpace_eq_false_of_hex (hhex x hx))
  cases s with
  | nil => exact absurd rfl hne
  | cons c0 cs =>
    have h0 : isHexDigitChar c0 = true := hhex c0 (List.mem_cons_self _ _)
    have hsg : splitSign (c0 :: cs) = (false, c0 :: cs) := by
      simp [splitSign,
        hex_beq_false h0 (by decide : isHexDigitChar '+' = false),
        hex_beq_false h0 (by decide : isHexDigitChar '-' = false)]
    have hpx : strip0x (c0 :: cs) = c0 :: cs := by
      cases cs with
      | nil => rfl
      | cons c1 cs2 =>
        have h1 : isHexDigitChar c1 = true := hhex c1 (by simp)
        simp [strip0x,
          hex_beq_false h1 (by decide : isHexDigitChar 'x' = false),
          hex_beq_false h1 (by decide : isHexDigitChar 'X' = false)]
    obtain ⟨n, hp, hb⟩ := parseHexDigits_all_hex (by simp) hhex
    refine ⟨n, ?_, hb⟩
    simp [pyIntVal16, hsp, hsg, hpx, hp]

theorem uuidNormalize_canonical {a b c d e : List Char}
    (hhex : ∀ x ∈ a ++ b ++ c ++ d ++ e, isHexDigitChar x = true) :
    uuidNormalize (a ++ '-' :: (b ++ '-' :: (c ++ '-' :: (d ++ '-' :: e)))) =
      a ++ (b ++ (c ++ (d ++ e))) := by
  have hmem : ∀ x ∈ a ++ '-' :: (b ++ '-' :: (c ++ '-' :: (d ++ '-' :: e))),
      isHexDigitChar x = true ∨ x = '-' := by
    intro x hx
    have hh := hhex x
    simp only [List.mem_append, List.mem_cons] at hx hh
    tauto
  have hcolon : (':' : Char) ∉ a ++ '-' :: (b ++ '-' :: (c ++ '-' :: (d ++ '-' :: e))) := by
    intro hm
    rcases hmem _ hm with h1 | h1
    · exact absurd h1 (by decide)
    · exact absurd h1 (by decide)
  have hbr : ∀ x ∈ a ++ '-' :: (b ++ '-' :: (c ++ '-' :: (d ++ '-' :: e))),
      isBraceChar x = false := by
    intro x hx
    rcases hmem _ hx with h1 | h1
    · simp [isBraceChar,
        hex_beq_false h1 (by decide : isHexDigitChar '\x7b' = false),
        hex_beq_false h1 (by decide : isHexDigitChar '\x7d' = false)]
    · subst h1; decide
  have hfa : ∀ (l : List Char), (∀ x ∈ l, isHexDigitChar x = true) →
      List.filter (fun ch => !(ch == '-')) l = l := by
    intro l hl
    apply List.filter_eq_self.mpr
    intro x hx
    simp [hex_beq_false (hl x hx) (by decide : isHexDigitChar '-' = false)]
  unfold uuidNormalize
  rw [removeAll_eq_self (show (':' : Char) ∈ ("urn:".toList) by decide) hcolon,
    removeAll_eq_self (show (':' : Char) ∈ ("uuid:".toList) by decide) hcolon,
    stripChars_eq_self hbr, removeAll_single_eq_filter]
  simp only [List.filter_append, List.filter_cons]
  rw [hfa a (fun x hx => hhex x (by simp [hx])),
    hfa b (fun x hx => hhex x (by simp [hx])),
    hfa c (fun x hx => hhex x (by simp [hx])),
    hfa d (fun x hx => hhex x (by simp [hx])),
    hfa e (fun x hx => hhex x (by simp [hx]))]
  simp

theorem canonical_length {s : List Char} (h : IsCanonicalUUID s) : s.length = 36 := by
  obtain ⟨a, b, c, d, e, ha, hb, hc, hd, he, _, rfl⟩ := h
  simp [List.length_append, List.length_cons, ha, hb, hc, hd, he]

/-! ## C6: the validator versus the canonical hyphenated layout -/

/-- C6 (amended): the identity validator accepts every string in the
canonical hyphenated 8-4-4-4-12 hexadecimal layout, but it is not
restricted to that layout: `uuid.UUID` also accepts, among others, the
unhyphenated 32-digit spelling, the braced spelling and the
URN-prefixed spelling of the same value. -/
theorem C6_validator_accepts_canonical :
    (∀ s : List Char, IsCanonicalUUID s → (uuidUUID s).isSome = true) ∧
    (uuidUUID ("12345678123456781234567812345678".data)).isSome = true ∧
    (uuidUUID ("\x7b12345678-1234-5678-1234-567812345678\x7d".data)).isSome = true ∧
    (uuidUUID ("urn:uuid:12345678-1234-5678-1234-567812345678".data)).isSome = true := by
  refine ⟨?_, by decide, by decide, by decide⟩
  intro s h
  obtain ⟨a, b, c, d, e, ha, hb, hc, hd, he, hhex, rfl⟩ := h
  have hnorm := uuidNormalize_canonical hhex
  have hlen : (a ++ (b ++ (c ++ (d ++ e)))).length = 32 := by
    simp [List.length_append, ha, hb, hc, hd, he]
  have hhex2 : ∀ x ∈ a ++ (b ++ (c ++ (d ++ e))), isHexDigitChar x = true := by
    intro x hx
    apply hhex
    simp only [List.mem_append] at hx ⊢
    tauto
  have hne : a ++ (b ++ (c ++ (d ++ e))) ≠ [] := by
    intro hh
    rw [hh] at hlen
    simp at hlen
  obtain ⟨n, hp, hbound⟩ := pyIntVal16_all_hex hne hhex2
  have hbound2 : n < 2 ^ 128 := by
    have h16 : (16 : Nat) ^ 32 = 2 ^ 128 := by norm_num
    rw [hlen, h16] at hbound
    exact hbound
  have hlt : (n : Int) < 2 ^ 128 := by exact_mod_cast hbound2
  unfold uuidUUID
  rw [hnorm]
  simp [hlen, hp, hlt, Int.natCast_nonneg]
  exact lt_of_lt_of_eq hbound2 (by norm_num)

/-- C6 (counterexample): the unhyphenated 32-digit spelling is accepted
by the validator although it is not in the canonical hyphenated
layout, so "accepts if and only if canonical" is false. -/
theorem C6_counterexample :
    (uuidUUID ("12345678123456781234567812345678".data)).isSome = true ∧
    ¬ IsCanonicalUUID ("12345678123456781234567812345678".data) := by
  constructor
  · decide
  · intro h
    exact absurd (canonical_length h) (by decide)

/-- C6 witness: the amended theorem applied to one concrete canonical
string. -/
theorem C6_validator_accepts_canonical_witness :
    (uuidUUID ("12345678-1234-5678-1234-567812345678".data)).isSome = true :=
  C6_validator_accepts_canonical.1 _
    ⟨"12345678".data, "1234".data, "5678".data, "1234".data, "567812345678".data,
      rfl, rfl, rfl, rfl, rfl, by decide, rfl⟩
